import Mathlib

/-!
# Verification of the Omni Gratum time-tracking service

Shallow embedding of the domain logic of `server.py` (with the schema of
`models.py`).  Timestamps are modelled as integers on the naive-`datetime`
timeline, measured in microseconds (Python `datetime` resolution); a calendar
date is the floor of a timestamp by the length of a day.  The relational
store is a record of four lists mirroring the four tables.  Each endpoint is
a pure function from the store (plus the authenticated user injected by
FastAPI's dependency) to a result and the store after the request; an error
result models a raised `HTTPException`, in which case no commit happened and
the store is returned unchanged, as in the source where every `raise` occurs
before any mutation is committed.
-/

namespace OG

/-- `models.py` `UserRole`: the closed role tag-set. -/
inductive UserRole where
  | admin
  | employee
deriving DecidableEq, Repr

/-- `models.py` `EntryType`: how a time entry was produced. -/
inductive EntryType where
  | timer
  | manual
deriving DecidableEq, Repr

/-- The error taxonomy of the service, by the status codes `server.py`
raises: 401, 403, 404, the 400 of a non-positive interval, the 400 of a
duplicate email, and the 500 of an exception that no handler catches
(a violated database constraint or an invalid role string). -/
inductive ApiError where
  | unauthenticated
  | forbidden
  | notFound
  | invalidInterval
  | conflict
  | internalError
deriving DecidableEq, Repr

/-- `models.py` `User` (the columns the domain logic reads). -/
structure User where
  id : String
  email : String
  password : String
  name : String
  role : UserRole
deriving DecidableEq, Repr

/-- `models.py` `Project`. -/
structure Project where
  id : String
  name : String
  description : Option String
  created_by : Option String
  status : String
  created_at : Int
deriving DecidableEq, Repr

/-- `models.py` `Task`; `project_id` is a non-null foreign key into
`projects.id`. -/
structure Task where
  id : String
  name : String
  description : Option String
  project_id : String
  status : String
  created_at : Int
deriving DecidableEq, Repr

/-- `models.py` `TimeEntry`.  `duration` is in seconds; `date` stores the
calendar date of `start_time` (a day number here). -/
structure TimeEntry where
  id : String
  user_id : String
  project_id : Option String
  task_id : Option String
  start_time : Int
  end_time : Int
  duration : Int
  entry_type : EntryType
  date : Int
  notes : Option String
  created_at : Int
deriving DecidableEq, Repr

/-- `server.py` `ProjectCreate` request schema. -/
structure ProjectCreate where
  name : String
  description : Option String
  status : String
deriving DecidableEq, Repr

/-- `server.py` `TaskCreate` request schema. -/
structure TaskCreate where
  name : String
  description : Option String
  project_id : String
  status : String
deriving DecidableEq, Repr

/-- `server.py` `TimeEntryCreate` request schema (used for both create and
update of time entries). -/
structure TimeEntryCreate where
  project_id : Option String
  task_id : Option String
  start_time : Int
  end_time : Int
  notes : Option String
deriving DecidableEq, Repr

/-- `server.py` `UserCreate` request schema; `role` arrives as a string. -/
structure UserCreate where
  email : String
  password : String
  name : String
  role : String
deriving DecidableEq, Repr

/-- The four tables of the relational store. -/
structure Store where
  users : List User
  projects : List Project
  tasks : List Task
  time_entries : List TimeEntry
deriving DecidableEq, Repr

/-! ## Time arithmetic -/

/-- Microseconds per second: Python `datetime` has microsecond resolution. -/
def usPerSecond : Int := 1000000

/-- Microseconds per day. -/
def usPerDay : Int := 86400000000

/-- Python `dt.date()` on the naive timeline: the calendar day containing a
timestamp, as a day number (floor division, as dates extend over whole days
also before the epoch). -/
def dayOf (t : Int) : Int := t.fdiv usPerDay

/-- Midnight of a calendar day, as `datetime.fromisoformat` yields on a plain
date string. -/
def startOfDay (d : Int) : Int := d * usPerDay

/-- `int((end_time - start_time).total_seconds())` — `server.py` lines 319
and 352: the signed microsecond difference converted to whole seconds with
Python `int`'s truncation toward zero. -/
def computeDuration (start_time end_time : Int) : Int :=
  (end_time - start_time).tdiv usPerSecond

/-- The interval validator shared verbatim by `create_manual_time_entry`
(`server.py` 319–322) and `update_time_entry` (`server.py` 352–354): compute
the duration in whole seconds and raise the 400 `InvalidInterval` error when
it is not strictly positive. -/
def validateInterval (start_time end_time : Int) : Option Int :=
  let duration := computeDuration start_time end_time
  if duration ≤ 0 then none else some duration

/-! ## Identity and access -/

/-- `server.py` `require_admin` (lines 120–123): 403 unless the caller's
role is `admin`. -/
def require_admin (current_user : User) : Except ApiError User :=
  if current_user.role ≠ UserRole.admin then .error .forbidden
  else .ok current_user

/-- Modelled from the spec: `get_password_hash` lives in `auth.py`, which is
not part of the given sources; the spec (§1) declares password hashing
out-of-scope plumbing, so it is modelled as an abstract injective tagging of
the plaintext. -/
def hashPassword (p : String) : String := "#" ++ p

/-- `UserRole(user.role)` in `create_user` (`server.py` line 400): parsing
the role string; an unknown string raises `ValueError`, which no handler
catches. -/
def parseRole (s : String) : Option UserRole :=
  if s = "admin" then some .admin
  else if s = "employee" then some .employee
  else none

/-! ## Foreign keys

`models.py` declares `tasks.project_id` (non-null), `time_entries.user_id`
(non-null), `time_entries.project_id` and `time_entries.task_id` (nullable)
as foreign keys.  The MySQL store enforces them at commit; a violated
constraint aborts the transaction (so the store is unchanged) and the
resulting `IntegrityError` escapes the handler as a 500. -/

def projectExists (db : Store) (pid : String) : Bool :=
  db.projects.any (fun p => p.id == pid)

def taskExists (db : Store) (tid : String) : Bool :=
  db.tasks.any (fun t => t.id == tid)

def userExists (db : Store) (uid : String) : Bool :=
  db.users.any (fun u => u.id == uid)

/-- The nullable project/task references of a time-entry row satisfy their
foreign keys. -/
def entryRefsOk (db : Store) (pid tid : Option String) : Bool :=
  (match pid with
   | none => true
   | some p => projectExists db p) &&
  (match tid with
   | none => true
   | some t => taskExists db t)

/-! ## Catalog endpoints (`server.py` 205–289) -/

/-- `create_project` (`server.py` 205–217): admin-gated insert of a new
project row.  `new_id` stands for the generated uuid and `now` for the
`created_at` default. -/
def create_project (db : Store) (current_user : User) (project : ProjectCreate)
    (new_id : String) (now : Int) : Except ApiError Project × Store :=
  match require_admin current_user with
  | .error e => (.error e, db)
  | .ok _ =>
    let new_project : Project :=
      { id := new_id, name := project.name, description := project.description,
        created_by := some current_user.id, status := project.status,
        created_at := now }
    (.ok new_project, { db with projects := db.projects ++ [new_project] })

/-- `update_project` (`server.py` 219–231): admin-gated; 404 when the id
does not resolve; otherwise overwrite name, description and status. -/
def update_project (db : Store) (current_user : User) (project_id : String)
    (project : ProjectCreate) : Except ApiError Project × Store :=
  match require_admin current_user with
  | .error e => (.error e, db)
  | .ok _ =>
    match db.projects.find? (fun p => p.id == project_id) with
    | none => (.error .notFound, db)
    | some db_project =>
      let updated := { db_project with
        name := project.name, description := project.description,
        status := project.status }
      (.ok updated,
        { db with projects :=
            db.projects.map (fun p => if p.id == project_id then updated else p) })

/-- `delete_project` (`server.py` 233–241): admin-gated; 404 when the id does
not resolve; otherwise hard delete.  The ORM cascades: the project's tasks
are deleted (`cascade="all, delete-orphan"` in `models.py`), and the nullable
references from time entries to the project and to its deleted tasks are
nulled out (the default one-to-many behaviour of the `time_entries`
relationships). -/
def delete_project (db : Store) (current_user : User) (project_id : String) :
    Except ApiError Unit × Store :=
  match require_admin current_user with
  | .error e => (.error e, db)
  | .ok _ =>
    match db.projects.find? (fun p => p.id == project_id) with
    | none => (.error .notFound, db)
    | some _ =>
      let deadTask := fun (tid : String) =>
        db.tasks.any (fun t => t.id == tid && t.project_id == project_id)
      (.ok (),
        { db with
          projects := db.projects.filter (fun p => !(p.id == project_id)),
          tasks := db.tasks.filter (fun t => !(t.project_id == project_id)),
          time_entries := db.time_entries.map (fun e =>
            { e with
              project_id :=
                if e.project_id == some project_id then none else e.project_id,
              task_id :=
                match e.task_id with
                | none => none
                | some tid => if deadTask tid then none else some tid }) })

/-- `create_task` (`server.py` 252–264): admin-gated insert of a new task
row.  The handler performs no project-existence check; the non-null foreign
key `tasks.project_id` is enforced only by the store at commit, so a missing
project aborts the insert with an `IntegrityError` (500), not a 404. -/
def create_task (db : Store) (current_user : User) (task : TaskCreate)
    (new_id : String) (now : Int) : Except ApiError Task × Store :=
  match require_admin current_user with
  | .error e => (.error e, db)
  | .ok _ =>
    let new_task : Task :=
      { id := new_id, name := task.name, description := task.description,
        project_id := task.project_id, status := task.status, created_at := now }
    if projectExists db task.project_id then
      (.ok new_task, { db with tasks := db.tasks ++ [new_task] })
    else (.error .internalError, db)

/-- `update_task` (`server.py` 266–279): admin-gated; 404 when the id does
not resolve; otherwise overwrite name, description, project and status (the
rewritten `project_id` is subject to the same foreign key at commit). -/
def update_task (db : Store) (current_user : User) (task_id : String)
    (task : TaskCreate) : Except ApiError Task × Store :=
  match require_admin current_user with
  | .error e => (.error e, db)
  | .ok _ =>
    match db.tasks.find? (fun t => t.id == task_id) with
    | none => (.error .notFound, db)
    | some db_task =>
      let updated := { db_task with
        name := task.name, description := task.description,
        project_id := task.project_id, status := task.status }
      if projectExists db task.project_id then
        (.ok updated,
          { db with tasks :=
              db.tasks.map (fun t => if t.id == task_id then updated else t) })
      else (.error .internalError, db)

/-- `delete_task` (`server.py` 281–289): admin-gated; 404 when the id does
not resolve; otherwise hard delete, nulling the nullable references from
time entries to the deleted task. -/
def delete_task (db : Store) (current_user : User) (task_id : String) :
    Except ApiError Unit × Store :=
  match require_admin current_user with
  | .error e => (.error e, db)
  | .ok _ =>
    match db.tasks.find? (fun t => t.id == task_id) with
    | none => (.error .notFound, db)
    | some _ =>
      (.ok (),
        { db with
          tasks := db.tasks.filter (fun t => !(t.id == task_id)),
          time_entries := db.time_entries.map (fun e =>
            { e with task_id :=
                if e.task_id == some task_id then none else e.task_id }) })

/-! ## User endpoints (`server.py` 383–405) -/

/-- `get_users` (`server.py` 383–386): admin-gated listing of all users. -/
def get_users (db : Store) (current_user : User) : Except ApiError (List User) :=
  match require_admin current_user with
  | .error e => .error e
  | .ok _ => .ok db.users

/-- `create_user` (`server.py` 388–405): admin-gated; 400 `Conflict` when the
email is already registered; the role string is parsed by `UserRole(...)`
(a bad string raises out of the handler); the password is stored hashed. -/
def create_user (db : Store) (current_user : User) (user : UserCreate)
    (new_id : String) : Except ApiError User × Store :=
  match require_admin current_user with
  | .error e => (.error e, db)
  | .ok _ =>
    if db.users.any (fun u => u.email == user.email) then
      (.error .conflict, db)
    else
      match parseRole user.role with
      | none => (.error .internalError, db)
      | some r =>
        let new_user : User :=
          { id := new_id, email := user.email,
            password := hashPassword user.password, name := user.name,
            role := r }
        (.ok new_user, { db with users := db.users ++ [new_user] })

/-! ## Time-entry endpoints (`server.py` 292–380) -/

/-- The owner pre-filter shared by `get_time_entries` (302–303),
`get_timesheets` (419–422) and `get_reports` (469–470): a non-admin only ever
sees rows whose `user_id` is their own. -/
def ownEntries (db : Store) (current_user : User) : List TimeEntry :=
  if current_user.role ≠ UserRole.admin then
    db.time_entries.filter (fun e => e.user_id == current_user.id)
  else db.time_entries

/-- The optional date-range filter shared by `get_time_entries` (305–311),
`get_timesheets` (424–430) and `get_reports` (472–478): a supplied start
date keeps entries with `start_time` at or after its midnight; a supplied
end date adds one day and keeps entries with `start_time` strictly before
the resulting midnight. -/
def entryInRange (start_date end_date : Option Int) (e : TimeEntry) : Bool :=
  (match start_date with
   | none => true
   | some d => startOfDay d ≤ e.start_time) &&
  (match end_date with
   | none => true
   | some d => e.start_time < startOfDay (d + 1))

/-- `get_time_entries` (`server.py` 292–314): owner pre-filter, optional
date range, result ordered by `start_time` descending. -/
def get_time_entries (db : Store) (current_user : User)
    (start_date end_date : Option Int) : List TimeEntry :=
  List.insertionSort (fun a b => b.start_time ≤ a.start_time)
    ((ownEntries db current_user).filter (entryInRange start_date end_date))

/-- `create_manual_time_entry` (`server.py` 316–339): validate the interval,
then insert a row owned by the caller with `entry_type = manual` and `date`
the calendar date of the start.  `new_id` stands for the generated uuid and
`now` for the `created_at` default; the row's foreign keys are checked by
the store at commit. -/
def create_manual_time_entry (db : Store) (current_user : User)
    (entry : TimeEntryCreate) (new_id : String) (now : Int) :
    Except ApiError TimeEntry × Store :=
  match validateInterval entry.start_time entry.end_time with
  | none => (.error .invalidInterval, db)
  | some duration =>
    let new_entry : TimeEntry :=
      { id := new_id, user_id := current_user.id,
        project_id := entry.project_id, task_id := entry.task_id,
        start_time := entry.start_time, end_time := entry.end_time,
        duration := duration, entry_type := .manual,
        date := dayOf entry.start_time, notes := entry.notes,
        created_at := now }
    if userExists db current_user.id &&
        entryRefsOk db entry.project_id entry.task_id then
      (.ok new_entry, { db with time_entries := db.time_entries ++ [new_entry] })
    else (.error .internalError, db)

/-- `update_time_entry` (`server.py` 341–366): 404 when the id does not
resolve; 403 unless the caller owns the entry or is an admin; then the
interval is re-validated and the row's project, task, interval, duration,
notes and date are overwritten in place (id, owner, entry type and creation
time are untouched). -/
def update_time_entry (db : Store) (current_user : User) (entry_id : String)
    (entry : TimeEntryCreate) : Except ApiError TimeEntry × Store :=
  match db.time_entries.find? (fun e => e.id == entry_id) with
  | none => (.error .notFound, db)
  | some db_entry =>
    if db_entry.user_id ≠ current_user.id ∧ current_user.role ≠ UserRole.admin
    then (.error .forbidden, db)
    else
      match validateInterval entry.start_time entry.end_time with
      | none => (.error .invalidInterval, db)
      | some duration =>
        let updated := { db_entry with
          project_id := entry.project_id, task_id := entry.task_id,
          start_time := entry.start_time, end_time := entry.end_time,
          duration := duration, notes := entry.notes,
          date := dayOf entry.start_time }
        if entryRefsOk db entry.project_id entry.task_id then
          (.ok updated,
            { db with time_entries :=
                db.time_entries.map (fun e =>
                  if e.id == entry_id then updated else e) })
        else (.error .internalError, db)

/-- `delete_time_entry` (`server.py` 368–380): 404 when the id does not
resolve; 403 unless the caller owns the entry or is an admin; then hard
delete. -/
def delete_time_entry (db : Store) (current_user : User) (entry_id : String) :
    Except ApiError Unit × Store :=
  match db.time_entries.find? (fun e => e.id == entry_id) with
  | none => (.error .notFound, db)
  | some db_entry =>
    if db_entry.user_id ≠ current_user.id ∧ current_user.role ≠ UserRole.admin
    then (.error .forbidden, db)
    else
      (.ok (),
        { db with time_entries :=
            db.time_entries.filter (fun e => !(e.id == entry_id)) })

/-! ## Derived notions used by the statements -/

/-- The entries of a list sorted ascending by `start_time` (the
`order_by(TimeEntry.start_time)` of `server.py` line 432). -/
def sortedByStart (l : List TimeEntry) : List TimeEntry :=
  List.insertionSort (fun a b => a.start_time ≤ b.start_time) l

/-- Total of the durations of a list of entries. -/
def sumDur (l : List TimeEntry) : Int :=
  (l.map (fun e => e.duration)).sum

/-- Total duration of the entries of a list charged to a given project. -/
def sumDurBy (l : List TimeEntry) (pid : String) : Int :=
  sumDur (l.filter (fun e => e.project_id == some pid))

/-- Number of entries of a list charged to a given project. -/
def countBy (l : List TimeEntry) (pid : String) : Nat :=
  (l.filter (fun e => e.project_id == some pid)).length

/-- The display name the report resolves for a project id (`server.py`
line 493): the catalog name, or the sentinel when the id does not resolve. -/
def displayName (catalog : List Project) (pid : String) : String :=
  match catalog.find? (fun p => p.id == pid) with
  | some p => p.name
  | none => "Unknown"

/-- A time entry that only fixes its `start_time`, for boundary statements
about the date filter. -/
def entryStartingAt (t : Int) : TimeEntry :=
  { id := "probe", user_id := "probe", project_id := none, task_id := none,
    start_time := t, end_time := t, duration := 0, entry_type := .manual,
    date := dayOf t, notes := none, created_at := 0 }

/-! ## Timesheet aggregation (`server.py` 408–456) -/

/-- One date bucket of the timesheet view: the calendar date (a day number),
the running duration total, and the day's entries in insertion order. -/
structure Bucket where
  date : Int
  total_duration : Int
  entries : List TimeEntry
deriving DecidableEq, Repr

/-- One step of the grouping loop of `get_timesheets` (`server.py` 436–454):
Python dicts preserve insertion order, so a fresh date key appends a new
bucket at the end, and an existing key accumulates into its bucket. -/
def addToTimesheet (acc : List Bucket) (e : TimeEntry) : List Bucket :=
  let d := dayOf e.start_time
  if acc.any (fun b => b.date == d) then
    acc.map (fun b =>
      if b.date == d then
        { b with total_duration := b.total_duration + e.duration,
                 entries := b.entries ++ [e] }
      else b)
  else acc ++ [{ date := d, total_duration := e.duration, entries := [e] }]

/-- The aggregation half of `get_timesheets` (`server.py` 432–456): sort the
already-filtered entries ascending by `start_time` (the `order_by` of line
432) and fold them into date buckets. -/
def buildTimesheets (entries : List TimeEntry) : List Bucket :=
  (sortedByStart entries).foldl addToTimesheet []

/-- `get_timesheets` (`server.py` 408–456): owner pre-filter — where the
optional `user_id` parameter is consulted only on the admin branch of the
`if`/`elif` at lines 419–422 — then the date range, then the grouping. -/
def get_timesheets (db : Store) (current_user : User) (user_id : Option String)
    (start_date end_date : Option Int) : List Bucket :=
  let visible :=
    if current_user.role ≠ UserRole.admin then
      db.time_entries.filter (fun e => e.user_id == current_user.id)
    else
      match user_id with
      | some uid => db.time_entries.filter (fun e => e.user_id == uid)
      | none => db.time_entries
  buildTimesheets (visible.filter (entryInRange start_date end_date))

/-! ## Report aggregation (`server.py` 459–504) -/

/-- One row of the per-project breakdown of the report view. -/
structure ProjectAgg where
  project_id : String
  project_name : String
  duration : Int
  entries_count : Nat
deriving DecidableEq, Repr

/-- The report totals and breakdown. -/
structure Report where
  total_duration : Int
  total_entries : Nat
  projects : List ProjectAgg
deriving DecidableEq, Repr

/-- One step of the grouping loop of `get_reports` (`server.py` 487–498): an
entry with no project is skipped; a fresh project id appends a new row whose
display name is looked up in the catalog, `"Unknown"` when the id no longer
resolves; an existing id accumulates duration and count. -/
def addToReport (catalog : List Project) (acc : List ProjectAgg)
    (e : TimeEntry) : List ProjectAgg :=
  match e.project_id with
  | none => acc
  | some pid =>
    if acc.any (fun a => a.project_id == pid) then
      acc.map (fun a =>
        if a.project_id == pid then
          { a with duration := a.duration + e.duration,
                   entries_count := a.entries_count + 1 }
        else a)
    else
      acc ++ [{ project_id := pid, project_name := displayName catalog pid,
                duration := e.duration, entries_count := 1 }]

/-- The aggregation half of `get_reports` (`server.py` 480–504): grand total
duration, grand total count, and the per-project fold over the
already-filtered entries. -/
def buildReport (catalog : List Project) (entries : List TimeEntry) : Report :=
  { total_duration := (entries.map (fun e => e.duration)).sum,
    total_entries := entries.length,
    projects := entries.foldl (addToReport catalog) [] }

/-- `get_reports` (`server.py` 459–504): owner pre-filter, optional date
range, then the aggregation. -/
def get_reports (db : Store) (current_user : User)
    (start_date end_date : Option Int) : Report :=
  buildReport db.projects
    ((ownEntries db current_user).filter (entryInRange start_date end_date))

/-! ## Concrete data for the witnesses -/

/-- Timestamp: second `sec` of day `d` on the microsecond timeline. -/
def tAt (d sec : Int) : Int := d * usPerDay + sec * usPerSecond

def adminUser : User :=
  { id := "u-admin", email := "admin@omnigratum.com", password := "#admin123",
    name := "Admin User", role := .admin }

def employeeUser : User :=
  { id := "u-emp", email := "employee@omnigratum.com",
    password := "#employee123", name := "Employee User", role := .employee }

def otherUser : User :=
  { id := "u-other", email := "other@omnigratum.com", password := "#pw",
    name := "Other User", role := .employee }

def projectP1 : Project :=
  { id := "P1", name := "Project One", description := none,
    created_by := some "u-admin", status := "active", created_at := 0 }

def projectP2 : Project :=
  { id := "P2", name := "Project Two", description := none,
    created_by := some "u-admin", status := "active", created_at := 0 }

/-- Day number of 2024-01-01. -/
def demoDay : Int := 19723

/-- 2024-01-01 09:00–10:00, one hour on P1, owned by the employee. -/
def entryE1 : TimeEntry :=
  { id := "e1", user_id := "u-emp", project_id := some "P1", task_id := none,
    start_time := tAt demoDay 32400, end_time := tAt demoDay 36000,
    duration := 3600, entry_type := .manual, date := demoDay, notes := none,
    created_at := 0 }

/-- 2024-01-01 14:00–15:30, ninety minutes on P1, owned by the employee. -/
def entryE2 : TimeEntry :=
  { id := "e2", user_id := "u-emp", project_id := some "P1", task_id := none,
    start_time := tAt demoDay 50400, end_time := tAt demoDay 55800,
    duration := 5400, entry_type := .manual, date := demoDay, notes := none,
    created_at := 0 }

/-- 2024-01-02, fifty seconds on P2, owned by the employee. -/
def entryE3 : TimeEntry :=
  { id := "e3", user_id := "u-emp", project_id := some "P2", task_id := none,
    start_time := tAt (demoDay + 1) 3600, end_time := tAt (demoDay + 1) 3650,
    duration := 50, entry_type := .manual, date := demoDay + 1, notes := none,
    created_at := 0 }

/-- 2024-01-02, ten seconds with no project, owned by the employee. -/
def entryE4 : TimeEntry :=
  { id := "e4", user_id := "u-emp", project_id := none, task_id := none,
    start_time := tAt (demoDay + 1) 7200, end_time := tAt (demoDay + 1) 7210,
    duration := 10, entry_type := .manual, date := demoDay + 1, notes := none,
    created_at := 0 }

def demoDb : Store :=
  { users := [adminUser, employeeUser, otherUser],
    projects := [projectP1, projectP2],
    tasks := [],
    time_entries := [entryE1, entryE2, entryE3, entryE4] }

def demoEntryPayload : TimeEntryCreate :=
  { project_id := some "P1", task_id := none,
    start_time := tAt demoDay 32400, end_time := tAt demoDay 36000,
    notes := none }

def demoProjectPayload : ProjectCreate :=
  { name := "New Project", description := none, status := "active" }

def demoTaskPayload : TaskCreate :=
  { name := "New Task", description := none, project_id := "P1",
    status := "active" }

def demoUserPayload : UserCreate :=
  { email := "new@omnigratum.com", password := "pw", name := "New User",
    role := "employee" }

/-- A store holding only the admin account: no projects at all. -/
def emptyDb : Store :=
  { users := [adminUser], projects := [], tasks := [], time_entries := [] }

/-- A zero-length interval: rejected by the validator. -/
def badIntervalPayload : TimeEntryCreate :=
  { project_id := none, task_id := none, start_time := 1000,
    end_time := 1000, notes := none }

/-- An unsorted selection fed to the timesheet aggregation in the
witnesses. -/
def demoTsList : List TimeEntry := [entryE2, entryE1, entryE3]

/-- The 2024-01-01 bucket the timesheet aggregation builds from
`demoTsList`. -/
def demoBucket : Bucket :=
  { date := demoDay, total_duration := 9000, entries := [entryE1, entryE2] }

/-- The P1 row of the report built over the demo store's entries. -/
def demoAggP1 : ProjectAgg :=
  { project_id := "P1", project_name := "Project One", duration := 9000,
    entries_count := 2 }

/-! ## Invariants of the two grouping folds -/

/-- Invariant of the date-grouping loop of `get_timesheets` after the
entries `p` have been consumed: every bucket holds exactly the entries of
its date, in input order, with their duration total, and is non-empty; every
consumed entry has a bucket for its date; bucket dates are distinct. -/
def TsInv (p : List TimeEntry) (acc : List Bucket) : Prop :=
  (∀ b ∈ acc,
    b.entries = p.filter (fun e => dayOf e.start_time == b.date) ∧
    b.total_duration = sumDur b.entries ∧
    b.entries ≠ []) ∧
  (∀ e ∈ p, ∃ b ∈ acc, b.date = dayOf e.start_time) ∧
  acc.Pairwise (fun b1 b2 => b1.date ≠ b2.date)

/-- Invariant of the project-grouping loop of `get_reports` after the
entries `p` have been consumed: every row carries the duration sum, entry
count and resolved display name of its project over `p`, and stems from at
least one consumed entry; every consumed project reference has a row; row
ids are distinct. -/
def RpInv (catalog : List Project) (p : List TimeEntry)
    (acc : List ProjectAgg) : Prop :=
  (∀ a ∈ acc,
    a.duration = sumDurBy p a.project_id ∧
    a.entries_count = countBy p a.project_id ∧
    a.project_name = displayName catalog a.project_id ∧
    (∃ e ∈ p, e.project_id = some a.project_id)) ∧
  (∀ e ∈ p, ∀ pid, e.project_id = some pid →
    ∃ a ∈ acc, a.project_id = pid) ∧
  acc.Pairwise (fun a1 a2 => a1.project_id ≠ a2.project_id)

instance : IsTotal TimeEntry (fun a b => a.start_time ≤ b.start_time) :=
  ⟨fun a b => Int.le_total a.start_time b.start_time⟩

instance : IsTrans TimeEntry (fun a b => a.start_time ≤ b.start_time) :=
  ⟨fun _ _ _ h1 h2 => le_trans h1 h2⟩

/-! ## Facts about the grouping folds -/

theorem sumDur_append (l1 l2 : List TimeEntry) :
    sumDur (l1 ++ l2) = sumDur l1 + sumDur l2 := by
  simp [sumDur]

theorem mem_sortedByStart {l : List TimeEntry} {e : TimeEntry} :
    e ∈ sortedByStart l ↔ e ∈ l :=
  List.mem_insertionSort _

/-- One step of the date-grouping loop preserves its invariant. -/
theorem tsInv_step (p : List TimeEntry) (acc : List Bucket) (e : TimeEntry)
    (h : TsInv p acc) : TsInv (p ++ [e]) (addToTimesheet acc e) := by
  obtain ⟨hb, hcov, hdist⟩ := h
  have hfilter_app : ∀ dd : Int,
      (p ++ [e]).filter (fun x => dayOf x.start_time == dd) =
        p.filter (fun x => dayOf x.start_time == dd) ++
          (if dayOf e.start_time == dd then [e] else []) := by
    intro dd
    rw [List.filter_append]
    congr 1
    cases hed : dayOf e.start_time == dd <;> simp [List.filter_cons, hed]
  by_cases hany : acc.any (fun b => b.date == dayOf e.start_time) = true
  · have hstep : addToTimesheet acc e = acc.map (fun b =>
        if b.date == dayOf e.start_time then
          { b with total_duration := b.total_duration + e.duration,
                   entries := b.entries ++ [e] }
        else b) := by
      simp only [addToTimesheet]
      rw [if_pos hany]
    rw [hstep]
    refine ⟨?_, ?_, ?_⟩
    · intro b' hb'
      obtain ⟨b, hbmem, hfb⟩ := List.mem_map.mp hb'
      obtain ⟨hent, htot, hne⟩ := hb b hbmem
      by_cases hbd : (b.date == dayOf e.start_time) = true
      · have hdate : b.date = dayOf e.start_time := by simpa using hbd
        have hb' : b' =
            { b with total_duration := b.total_duration + e.duration,
                     entries := b.entries ++ [e] } := by
          rw [← hfb, if_pos hbd]
        subst hb'
        refine ⟨?_, ?_, by simp⟩
        · show b.entries ++ [e] =
            (p ++ [e]).filter (fun x => dayOf x.start_time == b.date)
          rw [hfilter_app, ← hent, if_pos (by simpa using hdate.symm)]
        · show b.total_duration + e.duration = sumDur (b.entries ++ [e])
          rw [sumDur_append, htot]
          simp [sumDur]
      · have hb' : b' = b := by rw [← hfb, if_neg hbd]
        subst hb'
        refine ⟨?_, htot, hne⟩
        rw [hfilter_app, ← hent,
          if_neg (by simpa using fun hh => hbd (by simpa using hh.symm)),
          List.append_nil]
    · intro x hx
      rcases List.mem_append.mp hx with hx | hx
      · obtain ⟨b, hbmem, hdate⟩ := hcov x hx
        refine ⟨if b.date == dayOf e.start_time then
          { b with total_duration := b.total_duration + e.duration,
                   entries := b.entries ++ [e] } else b,
          List.mem_map.mpr ⟨b, hbmem, rfl⟩, ?_⟩
        by_cases hbd : (b.date == dayOf e.start_time) = true
        · rw [if_pos hbd]; exact hdate
        · rw [if_neg hbd]; exact hdate
      · have hx2 : x = e := by simpa using hx
        subst hx2
        obtain ⟨b, hbmem, hbd⟩ := List.any_eq_true.mp hany
        refine ⟨if b.date == dayOf x.start_time then
          { b with total_duration := b.total_duration + x.duration,
                   entries := b.entries ++ [x] } else b,
          List.mem_map.mpr ⟨b, hbmem, rfl⟩, ?_⟩
        rw [if_pos hbd]
        simpa using hbd
    · rw [List.pairwise_map]
      refine hdist.imp ?_
      intro b1 b2 hne12
      by_cases h1 : (b1.date == dayOf e.start_time) = true <;>
        by_cases h2 : (b2.date == dayOf e.start_time) = true <;>
        simp [h1, h2, hne12]
  · have hstep : addToTimesheet acc e = acc ++
        [{ date := dayOf e.start_time, total_duration := e.duration,
           entries := [e] }] := by
      simp only [addToTimesheet]
      rw [if_neg hany]
    have hnone : ∀ b ∈ acc, b.date ≠ dayOf e.start_time := by
      intro b hbmem
      have := List.any_eq_false.mp (Bool.not_eq_true _ ▸ hany) b hbmem
      simpa using this
    have hpnone : p.filter
        (fun x => dayOf x.start_time == dayOf e.start_time) = [] := by
      rw [List.filter_eq_nil_iff]
      intro x hx hxd
      obtain ⟨b, hbmem, hdate⟩ := hcov x hx
      exact hnone b hbmem (hdate.trans (by simpa using hxd))
    rw [hstep]
    refine ⟨?_, ?_, ?_⟩
    · intro b' hb'
      rcases List.mem_append.mp hb' with hbmem | hbmem
      · obtain ⟨hent, htot, hne⟩ := hb b' hbmem
        refine ⟨?_, htot, hne⟩
        rw [hfilter_app, ← hent,
          if_neg (by simpa using fun hh => hnone b' hbmem (by simpa using hh.symm)),
          List.append_nil]
      · have hb2 : b' =
            { date := dayOf e.start_time, total_duration := e.duration,
              entries := [e] } := by simpa using hbmem
        subst hb2
        refine ⟨?_, by simp [sumDur], by simp⟩
        show [e] = (p ++ [e]).filter (fun x => dayOf x.start_time == dayOf e.start_time)
        rw [hfilter_app, hpnone, if_pos (by simp), List.nil_append]
    · intro x hx
      rcases List.mem_append.mp hx with hx | hx
      · obtain ⟨b, hbmem, hdate⟩ := hcov x hx
        exact ⟨b, List.mem_append_left _ hbmem, hdate⟩
      · have hx2 : x = e := by simpa using hx
        subst hx2
        refine ⟨{ date := dayOf x.start_time, total_duration := x.duration,
                  entries := [x] }, List.mem_append_right _ (by simp), rfl⟩
    · rw [List.pairwise_append]
      refine ⟨hdist, by simp, ?_⟩
      intro b1 hb1 b2 hb2
      have hb2' : b2 =
          { date := dayOf e.start_time, total_duration := e.duration,
            entries := [e] } := by simpa using hb2
      subst hb2'
      exact hnone b1 hb1

/-- The date-grouping fold establishes the invariant from any state already
satisfying it. -/
theorem tsInv_foldl (l : List TimeEntry) :
    ∀ (p : List TimeEntry) (acc : List Bucket), TsInv p acc →
      TsInv (p ++ l) (l.foldl addToTimesheet acc) := by
  induction l with
  | nil => intro p acc h; simpa using h
  | cons e l ih =>
    intro p acc h
    have h3 := ih (p ++ [e]) (addToTimesheet acc e) (tsInv_step p acc e h)
    simpa [List.append_assoc] using h3

/-- The timesheet aggregation satisfies the loop invariant with respect to
the sorted input. -/
theorem buildTimesheets_inv (l : List TimeEntry) :
    TsInv (sortedByStart l) (buildTimesheets l) := by
  have h0 : TsInv [] [] := by
    refine ⟨by simp, by simp, by simp⟩
  have h := tsInv_foldl (sortedByStart l) [] [] h0
  simpa [buildTimesheets] using h

/-- An entry appears in some timesheet bucket exactly when it is in the
aggregated list. -/
theorem exists_bucket_mem_buildTimesheets (l : List TimeEntry)
    (e : TimeEntry) :
    (∃ b ∈ buildTimesheets l, e ∈ b.entries) ↔ e ∈ l := by
  constructor
  · rintro ⟨b, hbmem, he⟩
    obtain ⟨hent, -, -⟩ := (buildTimesheets_inv l).1 b hbmem
    rw [hent] at he
    exact mem_sortedByStart.mp (List.mem_filter.mp he).1
  · intro he
    have he2 : e ∈ sortedByStart l := mem_sortedByStart.mpr he
    obtain ⟨b, hbmem, hdate⟩ := (buildTimesheets_inv l).2.1 e he2
    refine ⟨b, hbmem, ?_⟩
    rw [((buildTimesheets_inv l).1 b hbmem).1, List.mem_filter]
    exact ⟨he2, by simp [hdate]⟩

/-! ## Claims -/

/-- C2 (amended).  `validateInterval` accepts exactly the pairs whose
difference is at least one whole second: when `end_time - start_time ≥ 1 s`
it returns the whole-second difference (the floor of the microsecond
difference by one second, as the two floor inequalities state), and it
rejects with `InvalidInterval` whenever the difference is under one
second — in particular when `end_time = start_time`, and also when
`end_time > start_time` by less than a second. -/
theorem C2_validateInterval_whole_seconds (start_time end_time : Int) :
    (usPerSecond ≤ end_time - start_time →
      validateInterval start_time end_time =
        some (computeDuration start_time end_time) ∧
      computeDuration start_time end_time * usPerSecond ≤
        end_time - start_time ∧
      end_time - start_time <
        (computeDuration start_time end_time + 1) * usPerSecond) ∧
    (end_time - start_time < usPerSecond →
      validateInterval start_time end_time = none) ∧
    validateInterval start_time start_time = none := by
  have hus : usPerSecond = (1000000 : Int) := rfl
  set a : Int := end_time - start_time with ha
  have hcd : computeDuration start_time end_time = a.tdiv 1000000 := rfl
  refine ⟨fun h => ?_, fun h => ?_, ?_⟩
  · have h0 : (0 : Int) ≤ a := by omega
    have heq : a.tdiv 1000000 = a / 1000000 :=
      Int.tdiv_eq_ediv h0 (by norm_num)
    have h1 : 1 ≤ a / 1000000 := by
      rw [Int.le_ediv_iff_mul_le (by norm_num)]; omega
    have hdm := Int.ediv_add_emod a 1000000
    have hm0 := Int.emod_nonneg a (by norm_num : (1000000 : Int) ≠ 0)
    have hm1 := Int.emod_lt_of_pos a (by norm_num : (0 : Int) < 1000000)
    refine ⟨?_, ?_, ?_⟩
    · simp only [validateInterval, hcd, heq, hus]
      rw [if_neg (by omega)]
    · rw [hcd, heq, hus]; omega
    · rw [hcd, heq, hus]; omega
  · have hd0 : a.tdiv 1000000 ≤ 0 := by
      rcases le_or_lt 0 a with h0 | h0
      · have heq : a.tdiv 1000000 = a / 1000000 :=
          Int.tdiv_eq_ediv h0 (by norm_num)
        rw [heq, Int.ediv_eq_zero_of_lt h0 (by omega)]
      · have hneg : (0 : Int) ≤ -a := by omega
        have h1 : (0 : Int) ≤ (-a).tdiv 1000000 :=
          Int.tdiv_nonneg hneg (by norm_num)
        have h2 : (-a).tdiv 1000000 = -(a.tdiv 1000000) := Int.neg_tdiv a _
        omega
    simp only [validateInterval, hcd, hus]
    rw [if_pos (by omega)]
  · simp only [validateInterval, computeDuration, sub_self, Int.zero_tdiv]
    rw [if_pos le_rfl]

/-- C2 counterexample to the claim as stated: an interval of half a second
has `end > start`, yet the computed whole-second duration is `0` and the
request is rejected rather than returning a duration. -/
theorem C2_subsecond_counterexample :
    (0 : Int) < 500000 ∧ validateInterval 0 500000 = none := by
  constructor
  · decide
  · rfl

/-- C2 witness: a one-hour interval (3600 whole seconds) is accepted with
duration 3600, and a zero-length interval is rejected. -/
theorem C2_witness :
    validateInterval 0 3600000000 = some (computeDuration 0 3600000000) ∧
    computeDuration 0 3600000000 = 3600 ∧
    validateInterval 0 0 = none := by
  refine ⟨((C2_validateInterval_whole_seconds 0 3600000000).1 (by decide)).1,
    by rfl, (C2_validateInterval_whole_seconds 0 0).2.2⟩

/-- C1.  For an existing time entry, the write authorization applied
identically by `update_time_entry` and `delete_time_entry` rejects with
`Forbidden` exactly the callers that are neither an admin nor the entry's
owner; an admin or the owner is never rejected with `Forbidden`. -/
theorem C1_write_authorization (db : Store) (u : User) (entry_id : String)
    (payload : TimeEntryCreate) (e : TimeEntry)
    (h : db.time_entries.find? (fun x => x.id == entry_id) = some e) :
    ((update_time_entry db u entry_id payload).1 = .error .forbidden ↔
      ¬(u.role = .admin ∨ u.id = e.user_id)) ∧
    ((delete_time_entry db u entry_id).1 = .error .forbidden ↔
      ¬(u.role = .admin ∨ u.id = e.user_id)) := by
  by_cases hauth : e.user_id ≠ u.id ∧ u.role ≠ UserRole.admin
  · have hno : ¬(u.role = .admin ∨ u.id = e.user_id) := by
      rcases hauth with ⟨h1, h2⟩
      rintro (h3 | h3)
      · exact h2 h3
      · exact h1 h3.symm
    simp only [update_time_entry, delete_time_entry, h]
    rw [if_pos hauth, if_pos hauth]
    exact ⟨by simpa using hno, by simpa using hno⟩
  · have hyes : u.role = .admin ∨ u.id = e.user_id := by
      by_cases howner : u.id = e.user_id
      · exact Or.inr howner
      · left
        by_contra hrole
        exact hauth ⟨fun hh => howner hh.symm, hrole⟩
    simp only [update_time_entry, delete_time_entry, h]
    rw [if_neg hauth, if_neg hauth]
    have hyes2 : ¬u.role = UserRole.admin → u.id = e.user_id :=
      fun hna => hyes.resolve_left hna
    constructor
    · cases hvi : validateInterval payload.start_time payload.end_time with
      | none => simpa using hyes2
      | some dur =>
        cases href : entryRefsOk db payload.project_id payload.task_id <;>
          simpa [href] using hyes2
    · simpa using hyes2

/-- C1 witness: on the demo store, a non-owner non-admin caller is rejected
with `Forbidden` by both the update and the delete of the employee's
entry. -/
theorem C1_witness :
    (update_time_entry demoDb otherUser "e1" demoEntryPayload).1 =
      .error .forbidden ∧
    (delete_time_entry demoDb otherUser "e1").1 = .error .forbidden := by
  have hc := C1_write_authorization demoDb otherUser "e1" demoEntryPayload
    entryE1 (by decide)
  exact ⟨hc.1.mpr (by decide), hc.2.mpr (by decide)⟩

/-- C7.  A non-admin caller of any catalog or user operation is rejected
with `Forbidden` and the store is returned unchanged: no write happens. -/
theorem C7_admin_gate (db : Store) (u : User) (pc : ProjectCreate)
    (tc : TaskCreate) (uc : UserCreate) (pid tid new_id : String) (now : Int)
    (hu : u.role ≠ UserRole.admin) :
    create_project db u pc new_id now = (.error .forbidden, db) ∧
    update_project db u pid pc = (.error .forbidden, db) ∧
    delete_project db u pid = (.error .forbidden, db) ∧
    create_task db u tc new_id now = (.error .forbidden, db) ∧
    update_task db u tid tc = (.error .forbidden, db) ∧
    delete_task db u tid = (.error .forbidden, db) ∧
    get_users db u = .error .forbidden ∧
    create_user db u uc new_id = (.error .forbidden, db) := by
  have hra : require_admin u = .error .forbidden := by
    simp [require_admin, hu]
  refine ⟨?_, ?_, ?_, ?_, ?_, ?_, ?_, ?_⟩ <;>
    simp [create_project, update_project, delete_project, create_task,
      update_task, delete_task, get_users, create_user, hra]

/-- C7 witness: on the demo store, the employee is rejected with `Forbidden`
by all eight admin-gated operations and the store is unchanged. -/
theorem C7_witness :
    create_project demoDb employeeUser demoProjectPayload "p-new" 0 =
      (.error .forbidden, demoDb) ∧
    update_project demoDb employeeUser "P1" demoProjectPayload =
      (.error .forbidden, demoDb) ∧
    delete_project demoDb employeeUser "P1" = (.error .forbidden, demoDb) ∧
    create_task demoDb employeeUser demoTaskPayload "t-new" 0 =
      (.error .forbidden, demoDb) ∧
    update_task demoDb employeeUser "t1" demoTaskPayload =
      (.error .forbidden, demoDb) ∧
    delete_task demoDb employeeUser "t1" = (.error .forbidden, demoDb) ∧
    get_users demoDb employeeUser = .error .forbidden ∧
    create_user demoDb employeeUser demoUserPayload "u-new" =
      (.error .forbidden, demoDb) :=
  C7_admin_gate demoDb employeeUser demoProjectPayload demoTaskPayload
    demoUserPayload "P1" "t1" "p-new" 0 (by decide)

/-- The value a successful `validateInterval` returns is the computed
whole-second duration, and it is positive. -/
theorem validateInterval_some {s e d : Int}
    (h : validateInterval s e = some d) :
    d = computeDuration s e ∧ ¬computeDuration s e ≤ 0 := by
  by_cases hc : computeDuration s e ≤ 0
  · simp [validateInterval, hc] at h
  · simp [validateInterval, hc] at h
    exact ⟨h.symm, hc⟩

/-- C3 (amended).  `create_task` performs no application-level
project-existence check and never raises `NotFound` for a missing project:
for an admin caller, when the project id does not resolve the insert is
stopped only by the store's foreign key (an `IntegrityError` surfacing as an
internal error, store unchanged), and when it does resolve the task is
created and appended. -/
theorem C3_create_task_project_check (db : Store) (u : User)
    (task : TaskCreate) (new_id : String) (now : Int)
    (hu : u.role = UserRole.admin) :
    (projectExists db task.project_id = false →
      create_task db u task new_id now = (.error .internalError, db)) ∧
    (projectExists db task.project_id = true →
      create_task db u task new_id now =
        (.ok { id := new_id, name := task.name,
               description := task.description,
               project_id := task.project_id, status := task.status,
               created_at := now },
         { db with tasks := db.tasks ++
             [{ id := new_id, name := task.name,
                description := task.description,
                project_id := task.project_id, status := task.status,
                created_at := now }] })) := by
  have hra : require_admin u = .ok u := by simp [require_admin, hu]
  constructor <;> intro h <;> simp [create_task, hra, h]

/-- C3 counterexample to the claim as stated: an admin creating a task
against a store with no projects is not answered with `NotFound` — the
failure is the store's integrity error instead. -/
theorem C3_counterexample :
    projectExists emptyDb "P-missing" = false ∧
    (create_task emptyDb adminUser
        { name := "T", description := none, project_id := "P-missing",
          status := "active" } "t1" 0).1 ≠ .error .notFound ∧
    (create_task emptyDb adminUser
        { name := "T", description := none, project_id := "P-missing",
          status := "active" } "t1" 0).1 = .error .internalError := by
  refine ⟨rfl, fun hbad => ?_, rfl⟩
  have h2 : (Except.error ApiError.internalError : Except ApiError Task) =
      Except.error ApiError.notFound := hbad
  simp at h2

/-- C3 witness: with the referenced project present, the admin's create
succeeds and appends exactly the new task row. -/
theorem C3_witness :
    create_task demoDb adminUser demoTaskPayload "t-new" 5 =
      (.ok { id := "t-new", name := "New Task", description := none,
             project_id := "P1", status := "active", created_at := 5 },
       { demoDb with tasks := demoDb.tasks ++
           [{ id := "t-new", name := "New Task", description := none,
              project_id := "P1", status := "active", created_at := 5 }] }) :=
  (C3_create_task_project_check demoDb adminUser demoTaskPayload "t-new" 5
    rfl).2 (by decide)

/-- C8.  Validation precedes every write: whenever a mutating operation
answers with an error, the store it returns is the store it was given — in
particular an `InvalidInterval` rejection of `update_time_entry` leaves the
targeted entry with all of its prior field values. -/
theorem C8_no_partial_writes (db : Store) (u : User) (pc : ProjectCreate)
    (tc : TaskCreate) (uc : UserCreate) (te : TimeEntryCreate)
    (pid tid eid new_id : String) (now : Int) (err : ApiError) :
    ((create_project db u pc new_id now).1 = .error err →
      (create_project db u pc new_id now).2 = db) ∧
    ((update_project db u pid pc).1 = .error err →
      (update_project db u pid pc).2 = db) ∧
    ((delete_project db u pid).1 = .error err →
      (delete_project db u pid).2 = db) ∧
    ((create_task db u tc new_id now).1 = .error err →
      (create_task db u tc new_id now).2 = db) ∧
    ((update_task db u tid tc).1 = .error err →
      (update_task db u tid tc).2 = db) ∧
    ((delete_task db u tid).1 = .error err →
      (delete_task db u tid).2 = db) ∧
    ((create_user db u uc new_id).1 = .error err →
      (create_user db u uc new_id).2 = db) ∧
    ((create_manual_time_entry db u te new_id now).1 = .error err →
      (create_manual_time_entry db u te new_id now).2 = db) ∧
    ((update_time_entry db u eid te).1 = .error err →
      (update_time_entry db u eid te).2 = db) ∧
    ((delete_time_entry db u eid).1 = .error err →
      (delete_time_entry db u eid).2 = db) ∧
    (validateInterval te.start_time te.end_time = none →
      ∀ e0, db.time_entries.find? (fun x => x.id == eid) = some e0 →
        (e0.user_id = u.id ∨ u.role = .admin) →
        update_time_entry db u eid te = (.error .invalidInterval, db)) := by
  cases hra : require_admin u with
  | error e1 =>
    refine ⟨?_, ?_, ?_, ?_, ?_, ?_, ?_, ?_, ?_, ?_, ?_⟩
    · intro h; simp [create_project, hra]
    · intro h; simp [update_project, hra]
    · intro h; simp [delete_project, hra]
    · intro h; simp [create_task, hra]
    · intro h; simp [update_task, hra]
    · intro h; simp [delete_task, hra]
    · intro h; simp [create_user, hra]
    · intro h
      unfold create_manual_time_entry at h ⊢
      cases hv : validateInterval te.start_time te.end_time with
      | none => simp [hv]
      | some dur =>
        simp only [hv] at h ⊢
        cases hok : userExists db u.id &&
            entryRefsOk db te.project_id te.task_id
        · simp [hok]
        · simp [hok] at h
    · intro h
      unfold update_time_entry at h ⊢
      cases hf : db.time_entries.find? (fun e => e.id == eid) with
      | none => simp [hf]
      | some e0 =>
        simp only [hf] at h ⊢
        by_cases ha : e0.user_id ≠ u.id ∧ u.role ≠ UserRole.admin
        · rw [if_pos ha]
        · rw [if_neg ha] at h ⊢
          cases hv : validateInterval te.start_time te.end_time with
          | none => simp [hv]
          | some dur =>
            simp only [hv] at h ⊢
            cases hr : entryRefsOk db te.project_id te.task_id
            · simp [hr]
            · simp [hr] at h
    · intro h
      unfold delete_time_entry at h ⊢
      cases hf : db.time_entries.find? (fun e => e.id == eid) with
      | none => simp [hf]
      | some e0 =>
        simp only [hf] at h ⊢
        by_cases ha : e0.user_id ≠ u.id ∧ u.role ≠ UserRole.admin
        · rw [if_pos ha]
        · rw [if_neg ha] at h
          simp at h
    · intro hv e0 hf hperm
      unfold update_time_entry
      rw [hf]
      simp only []
      rw [if_neg ?_, hv]
      rintro ⟨h1, h2⟩
      rcases hperm with h3 | h3
      · exact h1 h3
      · exact h2 h3
  | ok u1 =>
    refine ⟨?_, ?_, ?_, ?_, ?_, ?_, ?_, ?_, ?_, ?_, ?_⟩
    · intro h; simp [create_project, hra] at h
    · intro h
      unfold update_project at h ⊢
      cases hf : db.projects.find? (fun p => p.id == pid) <;>
        simp [hra, hf] at h ⊢
    · intro h
      unfold delete_project at h ⊢
      cases hf : db.projects.find? (fun p => p.id == pid) <;>
        simp [hra, hf] at h ⊢
    · intro h
      unfold create_task at h ⊢
      cases hpe : projectExists db tc.project_id <;>
        simp [hra, hpe] at h ⊢
    · intro h
      unfold update_task at h ⊢
      cases hf : db.tasks.find? (fun t => t.id == tid) with
      | none => simp [hra, hf]
      | some t0 =>
        simp only [hra, hf] at h ⊢
        cases hpe : projectExists db tc.project_id <;> simp [hpe] at h ⊢
    · intro h
      unfold delete_task at h ⊢
      cases hf : db.tasks.find? (fun t => t.id == tid) <;>
        simp [hra, hf] at h ⊢
    · intro h
      unfold create_user at h ⊢
      cases hdup : db.users.any (fun x => x.email == uc.email) with
      | true => simp [hra, hdup]
      | false =>
        simp only [hra, hdup] at h ⊢
        cases hrole : parseRole uc.role <;> simp [hrole] at h ⊢
    · intro h
      unfold create_manual_time_entry at h ⊢
      cases hv : validateInterval te.start_time te.end_time with
      | none => simp [hv]
      | some dur =>
        simp only [hv] at h ⊢
        cases hok : userExists db u.id &&
            entryRefsOk db te.project_id te.task_id
        · simp [hok]
        · simp [hok] at h
    · intro h
      unfold update_time_entry at h ⊢
      cases hf : db.time_entries.find? (fun e => e.id == eid) with
      | none => simp [hf]
      | some e0 =>
        simp only [hf] at h ⊢
        by_cases ha : e0.user_id ≠ u.id ∧ u.role ≠ UserRole.admin
        · rw [if_pos ha]
        · rw [if_neg ha] at h ⊢
          cases hv : validateInterval te.start_time te.end_time with
          | none => simp [hv]
          | some dur =>
            simp only [hv] at h ⊢
            cases hr : entryRefsOk db te.project_id te.task_id
            · simp [hr]
            · simp [hr] at h
    · intro h
      unfold delete_time_entry at h ⊢
      cases hf : db.time_entries.find? (fun e => e.id == eid) with
      | none => simp [hf]
      | some e0 =>
        simp only [hf] at h ⊢
        by_cases ha : e0.user_id ≠ u.id ∧ u.role ≠ UserRole.admin
        · rw [if_pos ha]
        · rw [if_neg ha] at h
          simp at h
    · intro hv e0 hf hperm
      unfold update_time_entry
      rw [hf]
      simp only []
      rw [if_neg ?_, hv]
      rintro ⟨h1, h2⟩
      rcases hperm with h3 | h3
      · exact h1 h3
      · exact h2 h3

/-- C8 witness: on the demo store, the owner's update with a zero-length
interval is answered `InvalidInterval` and the store — hence the targeted
entry — is exactly as before. -/
theorem C8_witness :
    update_time_entry demoDb employeeUser "e1" badIntervalPayload =
      (.error .invalidInterval, demoDb) :=
  (C8_no_partial_writes demoDb employeeUser demoProjectPayload
      demoTaskPayload demoUserPayload badIntervalPayload "P1" "t1" "e1"
      "n1" 0 ApiError.invalidInterval).2.2.2.2.2.2.2.2.2.2
    (by decide) entryE1 (by decide) (by decide)

/-- C9.  Owner and kind are fixed at creation: any entry successfully
created by `create_manual_time_entry` is owned by the caller, is `manual`,
and is the row appended to the store; any successful `update_time_entry`
keeps the stored `id`, `user_id`, `entry_type` and `created_at`, and
rewrites project, task, interval, duration, notes and date from the
payload. -/
theorem C9_owner_and_kind_fixed (db : Store) (u : User)
    (payload : TimeEntryCreate) (new_id entry_id : String) (now : Int) :
    (∀ e db2,
      create_manual_time_entry db u payload new_id now = (.ok e, db2) →
        e.user_id = u.id ∧ e.entry_type = .manual ∧
        db2 = { db with time_entries := db.time_entries ++ [e] }) ∧
    (∀ e0 e db2,
      db.time_entries.find? (fun x => x.id == entry_id) = some e0 →
      update_time_entry db u entry_id payload = (.ok e, db2) →
        e.id = e0.id ∧ e.user_id = e0.user_id ∧
        e.entry_type = e0.entry_type ∧ e.created_at = e0.created_at ∧
        e.project_id = payload.project_id ∧ e.task_id = payload.task_id ∧
        e.start_time = payload.start_time ∧ e.end_time = payload.end_time ∧
        e.duration = computeDuration payload.start_time payload.end_time ∧
        e.notes = payload.notes ∧ e.date = dayOf payload.start_time ∧
        db2 = { db with time_entries :=
            db.time_entries.map (fun x => if x.id == entry_id then e else x) }) := by
  constructor
  · intro e db2 h
    unfold create_manual_time_entry at h
    cases hv : validateInterval payload.start_time payload.end_time with
    | none => simp [hv] at h
    | some dur =>
      simp only [hv] at h
      cases hok : userExists db u.id &&
          entryRefsOk db payload.project_id payload.task_id
      · simp [hok] at h
      · simp only [hok, if_true] at h
        obtain ⟨he, hdb⟩ := Prod.mk.injEq .. ▸ h
        have he2 := Except.ok.inj he
        have hdur := (validateInterval_some hv).1
        subst hdb
        refine ⟨?_, ?_, ?_⟩ <;> rw [← he2]
  · intro e0 e db2 hf h
    unfold update_time_entry at h
    rw [hf] at h
    simp only [] at h
    by_cases ha : e0.user_id ≠ u.id ∧ u.role ≠ UserRole.admin
    · rw [if_pos ha] at h
      simp at h
    · rw [if_neg ha] at h
      cases hv : validateInterval payload.start_time payload.end_time with
      | none => simp [hv] at h
      | some dur =>
        simp only [hv] at h
        cases hr : entryRefsOk db payload.project_id payload.task_id
        · simp [hr] at h
        · simp only [hr, if_true] at h
          obtain ⟨he, hdb⟩ := Prod.mk.injEq .. ▸ h
          have he2 := Except.ok.inj he
          have hdur := (validateInterval_some hv).1
          subst hdb
          rw [← he2]
          refine ⟨rfl, rfl, rfl, rfl, rfl, rfl, rfl, rfl, ?_, rfl, rfl, rfl⟩
          simpa using hdur

/-- C9 witness: the employee's successful create on the demo store yields an
entry owned by the employee, of manual kind, appended to the store. -/
theorem C9_witness :
    ({ id := "e-new", user_id := "u-emp", project_id := some "P1",
       task_id := none, start_time := tAt demoDay 32400,
       end_time := tAt demoDay 36000, duration := 3600,
       entry_type := .manual, date := demoDay, notes := none,
       created_at := 7 } : TimeEntry).user_id = employeeUser.id ∧
    ({ id := "e-new", user_id := "u-emp", project_id := some "P1",
       task_id := none, start_time := tAt demoDay 32400,
       end_time := tAt demoDay 36000, duration := 3600,
       entry_type := .manual, date := demoDay, notes := none,
       created_at := 7 } : TimeEntry).entry_type = .manual ∧
    ({ demoDb with time_entries := demoDb.time_entries ++
        [{ id := "e-new", user_id := "u-emp", project_id := some "P1",
           task_id := none, start_time := tAt demoDay 32400,
           end_time := tAt demoDay 36000, duration := 3600,
           entry_type := .manual, date := demoDay, notes := none,
           created_at := 7 }] } : Store) =
      { demoDb with time_entries := demoDb.time_entries ++
          [{ id := "e-new", user_id := "u-emp", project_id := some "P1",
             task_id := none, start_time := tAt demoDay 32400,
             end_time := tAt demoDay 36000, duration := 3600,
             entry_type := .manual, date := demoDay, notes := none,
             created_at := 7 }] } :=
  (C9_owner_and_kind_fixed demoDb employeeUser demoEntryPayload "e-new" "e1"
    7).1 _ _ (by rfl)

/-- C10.  For a non-admin caller of `get_timesheets` the `user_id` parameter
is dead: any two values of it give the identical result, which is always the
caller's own entries grouped; only on the admin branch does a supplied
`user_id` select that user's entries. -/
theorem C10_user_filter_ignored_for_non_admin (db : Store) (u : User)
    (start_date end_date : Option Int) (uid1 uid2 : Option String)
    (uid : String) :
    (u.role ≠ .admin →
      get_timesheets db u uid1 start_date end_date =
        get_timesheets db u uid2 start_date end_date ∧
      get_timesheets db u uid1 start_date end_date =
        buildTimesheets
          ((db.time_entries.filter (fun e => e.user_id == u.id)).filter
            (entryInRange start_date end_date))) ∧
    (u.role = .admin →
      get_timesheets db u (some uid) start_date end_date =
        buildTimesheets
          ((db.time_entries.filter (fun e => e.user_id == uid)).filter
            (entryInRange start_date end_date))) := by
  constructor
  · intro hu
    constructor
    · unfold get_timesheets
      rw [if_pos hu, if_pos hu]
    · unfold get_timesheets
      rw [if_pos hu]
  · intro hu
    unfold get_timesheets
    rw [if_neg (by simp [hu])]

/-- C10 witness: on the demo store the employee's timesheets are identical
whether the dead `user_id` parameter names the admin or another user. -/
theorem C10_witness :
    get_timesheets demoDb employeeUser (some "u-admin") none none =
      get_timesheets demoDb employeeUser (some "u-other") none none :=
  ((C10_user_filter_ignored_for_non_admin demoDb employeeUser none none
    (some "u-admin") (some "u-other") "x").1 (by decide)).1

/-- C5.  The timesheet aggregation groups an already-filtered entry set by
the calendar date of `start_time`: each bucket holds exactly the entries of
its date in ascending `start_time` order, its `total_duration` is the sum of
their durations, no bucket is empty, bucket dates are distinct, and every
entry's date has a bucket. -/
theorem C5_timesheet_grouping (l : List TimeEntry) :
    (∀ b ∈ buildTimesheets l,
      b.entries = (sortedByStart l).filter
        (fun e => dayOf e.start_time == b.date) ∧
      b.total_duration = sumDur b.entries ∧
      b.entries ≠ [] ∧
      b.entries.Pairwise (fun e1 e2 => e1.start_time ≤ e2.start_time) ∧
      (∀ e ∈ b.entries, e ∈ l ∧ dayOf e.start_time = b.date)) ∧
    (∀ e ∈ l, ∃ b ∈ buildTimesheets l, b.date = dayOf e.start_time) ∧
    (buildTimesheets l).Pairwise (fun b1 b2 => b1.date ≠ b2.date) := by
  obtain ⟨hb, hcov, hdist⟩ := buildTimesheets_inv l
  refine ⟨?_, ?_, hdist⟩
  · intro b hbmem
    obtain ⟨hent, htot, hne⟩ := hb b hbmem
    refine ⟨hent, htot, hne, ?_, ?_⟩
    · rw [hent]
      exact (List.sorted_insertionSort
        (fun e1 e2 : TimeEntry => e1.start_time ≤ e2.start_time) l).filter _
    · intro e hemem
      rw [hent] at hemem
      have hsplit := List.mem_filter.mp hemem
      exact ⟨mem_sortedByStart.mp hsplit.1, by simpa using hsplit.2⟩
  · intro e hemem
    exact hcov e (mem_sortedByStart.mpr hemem)

/-- C5 witness: over the unsorted demo selection the 2024-01-01 bucket holds
exactly its two entries in ascending start order with total 9000 seconds. -/
theorem C5_witness :
    demoBucket.entries = (sortedByStart demoTsList).filter
      (fun e => dayOf e.start_time == demoBucket.date) ∧
    demoBucket.total_duration = sumDur demoBucket.entries ∧
    demoBucket.entries ≠ [] ∧
    demoBucket.entries.Pairwise (fun e1 e2 => e1.start_time ≤ e2.start_time) ∧
    (∀ e ∈ demoBucket.entries,
      e ∈ demoTsList ∧ dayOf e.start_time = demoBucket.date) :=
  (C5_timesheet_grouping demoTsList).1 demoBucket (by decide)

/-- One step of the project-grouping loop preserves its invariant. -/
theorem rpInv_step (catalog : List Project) (p : List TimeEntry)
    (acc : List ProjectAgg) (e : TimeEntry) (h : RpInv catalog p acc) :
    RpInv catalog (p ++ [e]) (addToReport catalog acc e) := by
  obtain ⟨ha, hcov, hdist⟩ := h
  have hfilter_app : ∀ pid : String,
      (p ++ [e]).filter (fun x => x.project_id == some pid) =
        p.filter (fun x => x.project_id == some pid) ++
          (if e.project_id == some pid then [e] else []) := by
    intro pid
    rw [List.filter_append]
    congr 1
    cases hed : e.project_id == some pid <;> simp [List.filter_cons, hed]
  cases hpid : e.project_id with
  | none =>
    have hstep : addToReport catalog acc e = acc := by
      simp [addToReport, hpid]
    have hfe : ∀ pid : String,
        (if e.project_id == some pid then [e] else []) =
          ([] : List TimeEntry) := by
      intro pid; rw [hpid]; simp
    rw [hstep]
    refine ⟨?_, ?_, hdist⟩
    · intro a hamem
      obtain ⟨hd, hc, hn, e0, he0, he0p⟩ := ha a hamem
      refine ⟨?_, ?_, hn, e0, List.mem_append_left _ he0, he0p⟩
      · unfold sumDurBy at hd ⊢
        rw [hfilter_app, hfe, List.append_nil]
        exact hd
      · unfold countBy at hc ⊢
        rw [hfilter_app, hfe, List.append_nil]
        exact hc
    · intro x hx pid hxpid
      rcases List.mem_append.mp hx with hx | hx
      · exact hcov x hx pid hxpid
      · have hxe : x = e := by simpa using hx
        subst hxe
        rw [hpid] at hxpid
        cases hxpid
  | some pid0 =>
    by_cases hany : acc.any (fun a => a.project_id == pid0) = true
    · have hstep : addToReport catalog acc e = acc.map (fun a =>
          if a.project_id == pid0 then
            { a with duration := a.duration + e.duration,
                     entries_count := a.entries_count + 1 }
          else a) := by
        simp [addToReport, hpid, hany]
      rw [hstep]
      refine ⟨?_, ?_, ?_⟩
      · intro a' ha'
        obtain ⟨a, hamem, hfa⟩ := List.mem_map.mp ha'
        obtain ⟨hd, hc, hn, e0, he0, he0p⟩ := ha a hamem
        by_cases had : (a.project_id == pid0) = true
        · have hae : a.project_id = pid0 := by simpa using had
          have ha2 : a' =
              { a with duration := a.duration + e.duration,
                       entries_count := a.entries_count + 1 } := by
            rw [← hfa, if_pos had]
          subst ha2
          have hfe : (if e.project_id == some a.project_id then [e]
              else []) = [e] := by
            rw [hpid]; simp [hae]
          refine ⟨?_, ?_, hn, e0, List.mem_append_left _ he0, he0p⟩
          · show a.duration + e.duration = sumDurBy (p ++ [e]) a.project_id
            unfold sumDurBy at hd ⊢
            rw [hfilter_app, hfe, sumDur_append, ← hd]
            simp [sumDur]
          · show a.entries_count + 1 = countBy (p ++ [e]) a.project_id
            unfold countBy at hc ⊢
            rw [hfilter_app, hfe, List.length_append, ← hc]
            simp
        · have had2 : a.project_id ≠ pid0 := by simpa using had
          have ha2 : a' = a := by rw [← hfa, if_neg had]
          subst ha2
          have hfe : (if e.project_id == some a'.project_id then [e]
              else []) = ([] : List TimeEntry) := by
            rw [hpid, if_neg]
            intro hh
            exact had2 ((by simpa using hh : pid0 = a'.project_id)).symm
          refine ⟨?_, ?_, hn, e0, List.mem_append_left _ he0, he0p⟩
          · unfold sumDurBy at hd ⊢
            rw [hfilter_app, hfe, List.append_nil]
            exact hd
          · unfold countBy at hc ⊢
            rw [hfilter_app, hfe, List.append_nil]
            exact hc
      · intro x hx pid hxpid
        rcases List.mem_append.mp hx with hx | hx
        · obtain ⟨a, hamem, hapid⟩ := hcov x hx pid hxpid
          refine ⟨if a.project_id == pid0 then
              { a with duration := a.duration + e.duration,
                       entries_count := a.entries_count + 1 }
            else a, List.mem_map.mpr ⟨a, hamem, rfl⟩, ?_⟩
          by_cases had : (a.project_id == pid0) = true
          · rw [if_pos had]
            exact hapid
          · rw [if_neg had]
            exact hapid
        · have hxe : x = e := by simpa using hx
          subst hxe
          rw [hpid] at hxpid
          have hpe : pid0 = pid := by injection hxpid
          subst hpe
          obtain ⟨a, hamem, had⟩ := List.any_eq_true.mp hany
          refine ⟨if a.project_id == pid0 then
              { a with duration := a.duration + x.duration,
                       entries_count := a.entries_count + 1 }
            else a, List.mem_map.mpr ⟨a, hamem, rfl⟩, ?_⟩
          rw [if_pos had]
          simpa using had
      · rw [List.pairwise_map]
        refine hdist.imp ?_
        intro a1 a2 hne12
        by_cases h1 : (a1.project_id == pid0) = true <;>
          by_cases h2 : (a2.project_id == pid0) = true <;>
          simp [h1, h2, hne12]
    · have hstep : addToReport catalog acc e = acc ++
          [{ project_id := pid0, project_name := displayName catalog pid0,
             duration := e.duration, entries_count := 1 }] := by
        simp [addToReport, hpid, hany]
      have hnone : ∀ a ∈ acc, a.project_id ≠ pid0 := by
        intro a hamem
        have := List.any_eq_false.mp (Bool.not_eq_true _ ▸ hany) a hamem
        simpa using this
      have hpnone : p.filter (fun x => x.project_id == some pid0) = [] := by
        rw [List.filter_eq_nil_iff]
        intro x hx hxp
        have hxp2 : x.project_id = some pid0 := by simpa using hxp
        obtain ⟨a, hamem, hapid⟩ := hcov x hx pid0 hxp2
        exact hnone a hamem hapid
      rw [hstep]
      refine ⟨?_, ?_, ?_⟩
      · intro a' ha'
        rcases List.mem_append.mp ha' with hamem | hamem
        · obtain ⟨hd, hc, hn, e0, he0, he0p⟩ := ha a' hamem
          have hfe : (if e.project_id == some a'.project_id then [e]
              else []) = ([] : List TimeEntry) := by
            rw [hpid, if_neg]
            intro hh
            exact hnone a' hamem
              ((by simpa using hh : pid0 = a'.project_id)).symm
          refine ⟨?_, ?_, hn, e0, List.mem_append_left _ he0, he0p⟩
          · unfold sumDurBy at hd ⊢
            rw [hfilter_app, hfe, List.append_nil]
            exact hd
          · unfold countBy at hc ⊢
            rw [hfilter_app, hfe, List.append_nil]
            exact hc
        · have ha2 : a' =
              { project_id := pid0,
                project_name := displayName catalog pid0,
                duration := e.duration, entries_count := 1 } := by
            simpa using hamem
          subst ha2
          refine ⟨?_, ?_, rfl, e, List.mem_append_right _ (by simp),
            by simpa using hpid⟩
          · show e.duration = sumDurBy (p ++ [e]) pid0
            unfold sumDurBy
            rw [hfilter_app, hpnone, List.nil_append, hpid]
            simp [sumDur]
          · show 1 = countBy (p ++ [e]) pid0
            unfold countBy
            rw [hfilter_app, hpnone, List.nil_append, hpid]
            simp
      · intro x hx pid hxpid
        rcases List.mem_append.mp hx with hx | hx
        · obtain ⟨a, hamem, hapid⟩ := hcov x hx pid hxpid
          exact ⟨a, List.mem_append_left _ hamem, hapid⟩
        · have hxe : x = e := by simpa using hx
          subst hxe
          rw [hpid] at hxpid
          have hpe : pid0 = pid := by injection hxpid
          refine ⟨{ project_id := pid0,
                    project_name := displayName catalog pid0,
                    duration := x.duration, entries_count := 1 },
            List.mem_append_right _ (by simp), hpe⟩
      · rw [List.pairwise_append]
        refine ⟨hdist, by simp, ?_⟩
        intro a1 ha1 a2 ha2'
        have ha2 : a2 =
            { project_id := pid0, project_name := displayName catalog pid0,
              duration := e.duration, entries_count := 1 } := by
          simpa using ha2'
        subst ha2
        exact hnone a1 ha1

/-- The project-grouping fold establishes the invariant from any state
already satisfying it. -/
theorem rpInv_foldl (l : List TimeEntry) (catalog : List Project) :
    ∀ (p : List TimeEntry) (acc : List ProjectAgg), RpInv catalog p acc →
      RpInv catalog (p ++ l) (l.foldl (addToReport catalog) acc) := by
  induction l with
  | nil => intro p acc h; simpa using h
  | cons e l ih =>
    intro p acc h
    have h3 := ih (p ++ [e]) _ (rpInv_step catalog p acc e h)
    simpa [List.append_assoc] using h3

/-- The report aggregation satisfies the loop invariant over its input. -/
theorem buildReport_inv (catalog : List Project) (l : List TimeEntry) :
    RpInv catalog l (buildReport catalog l).projects := by
  have h0 : RpInv catalog [] [] := ⟨by simp, by simp, by simp⟩
  have h := rpInv_foldl l catalog [] [] h0
  simpa [buildReport] using h

/-- C6.  The report's grand totals cover the whole filtered entry set
(entries with no project included), and the per-project breakdown carries
one row per distinct referenced project id with the duration sum and entry
count of exactly that project's entries, the catalog display name falling
back to "Unknown" for an unresolvable id. -/
theorem C6_report_aggregation (catalog : List Project) (l : List TimeEntry) :
    (buildReport catalog l).total_duration = sumDur l ∧
    (buildReport catalog l).total_entries = l.length ∧
    (∀ a ∈ (buildReport catalog l).projects,
      a.duration = sumDurBy l a.project_id ∧
      a.entries_count = countBy l a.project_id ∧
      a.project_name = displayName catalog a.project_id ∧
      ∃ e ∈ l, e.project_id = some a.project_id) ∧
    (∀ e ∈ l, ∀ pid, e.project_id = some pid →
      ∃ a ∈ (buildReport catalog l).projects, a.project_id = pid) ∧
    (buildReport catalog l).projects.Pairwise
      (fun a1 a2 => a1.project_id ≠ a2.project_id) := by
  obtain ⟨h1, h2, h3⟩ := buildReport_inv catalog l
  exact ⟨rfl, rfl, h1, h2, h3⟩

/-- C6 witness: over the demo store's four entries (9000 s on P1 across two
entries, 50 s on P2, 10 s with no project) the totals count everything and
the P1 row aggregates exactly its two entries. -/
theorem C6_witness :
    (buildReport demoDb.projects demoDb.time_entries).total_duration =
      sumDur demoDb.time_entries ∧
    (buildReport demoDb.projects demoDb.time_entries).total_entries =
      demoDb.time_entries.length ∧
    (demoAggP1.duration = sumDurBy demoDb.time_entries demoAggP1.project_id ∧
     demoAggP1.entries_count = countBy demoDb.time_entries demoAggP1.project_id ∧
     demoAggP1.project_name = displayName demoDb.projects demoAggP1.project_id ∧
     ∃ e ∈ demoDb.time_entries, e.project_id = some demoAggP1.project_id) :=
  ⟨(C6_report_aggregation demoDb.projects demoDb.time_entries).1,
   (C6_report_aggregation demoDb.projects demoDb.time_entries).2.1,
   (C6_report_aggregation demoDb.projects demoDb.time_entries).2.2.1
     demoAggP1 (by decide)⟩

/-- C4.  The optional date-range filter shared by the three list/aggregate
views keeps an entry iff its `start_time` is at or after the start date's
midnight and strictly before the midnight following the end date — so the
whole end-date calendar day is included: the last second of the end date
passes the filter and the first instant of the next day does not; the
membership of the three views applies exactly this filter (after the owner
pre-filter). -/
theorem C4_date_range_inclusive (db : Store) (u : User)
    (start_date end_date : Option Int) (d : Int) (e : TimeEntry) :
    (entryInRange start_date end_date e = true ↔
      (∀ a ∈ start_date, startOfDay a ≤ e.start_time) ∧
      (∀ b ∈ end_date, e.start_time < startOfDay (b + 1))) ∧
    entryInRange none (some d)
      (entryStartingAt (startOfDay d + 86399 * usPerSecond)) = true ∧
    entryInRange none (some d)
      (entryStartingAt (startOfDay (d + 1))) = false ∧
    (e ∈ get_time_entries db u start_date end_date ↔
      e ∈ ownEntries db u ∧ entryInRange start_date end_date e = true) ∧
    ((∃ b ∈ get_timesheets db u none start_date end_date, e ∈ b.entries) ↔
      e ∈ ownEntries db u ∧ entryInRange start_date end_date e = true) ∧
    (get_reports db u start_date end_date).total_entries =
      ((ownEntries db u).filter (entryInRange start_date end_date)).length := by
  refine ⟨?_, ?_, ?_, ?_, ?_, rfl⟩
  · cases start_date <;> cases end_date <;>
      simp [entryInRange, Option.mem_def]
  · simp only [entryInRange, entryStartingAt, startOfDay, usPerSecond,
      usPerDay, Bool.and_eq_true, decide_eq_true_eq]
    refine ⟨trivial, ?_⟩
    omega
  · simp only [entryInRange, entryStartingAt, startOfDay, Bool.and_eq_true,
      decide_eq_true_eq, Bool.and_eq_false_iff, decide_eq_false_iff_not]
    omega
  · simp [get_time_entries, List.mem_insertionSort, List.mem_filter]
  · have hvis : get_timesheets db u none start_date end_date =
        buildTimesheets ((ownEntries db u).filter
          (entryInRange start_date end_date)) := by
      unfold get_timesheets ownEntries
      by_cases hu : u.role ≠ UserRole.admin
      · rw [if_pos hu]
      · rw [if_neg hu]
    rw [hvis, exists_bucket_mem_buildTimesheets, List.mem_filter]

/-- C4 witness: on day 19723 (2024-01-01) as the end date, an entry starting
at 23:59:59 of that day passes the filter and one starting at the next
midnight does not. -/
theorem C4_witness :
    entryInRange none (some demoDay)
      (entryStartingAt (startOfDay demoDay + 86399 * usPerSecond)) = true ∧
    entryInRange none (some demoDay)
      (entryStartingAt (startOfDay (demoDay + 1))) = false :=
  ⟨(C4_date_range_inclusive demoDb employeeUser none none demoDay
      entryE1).2.1,
   (C4_date_range_inclusive demoDb employeeUser none none demoDay
      entryE1).2.2.1⟩

end OG
